import Mathlib

/-!
Verification of the schedule reconciliation / writer subsystem of the
PillNow mobile client (`src/app/MonitorManageScreen.tsx`,
`src/app/ModifyButton.tsx`, `src/app/SetScreen.tsx`).

The client is JavaScript/TypeScript working over duck-typed JSON records.
We embed the relevant runtime values shallowly:

* `JSVal` models a dynamically typed field value (string / number /
  undefined) as it occurs in fetched schedule records;
* JavaScript truthiness, `String(v)` coercion and `parseInt` are embedded
  as `jsTruthy`, `jsToStr` and `jsParseInt`;
* `Array.prototype.sort` (stable since ES2019) is embedded as
  `List.mergeSort`, which is also stable, with the comparator translated
  to a boolean `le`;
* `new Date(date + "T" + time)` timestamps are embedded by the combined
  string itself, compared lexicographically; on the wire format used by
  this app (fixed-width `YYYY-MM-DD` dates and `HH:MM` times) the
  lexicographic order of the combined strings agrees with the order of
  the millisecond timestamps the JS code compares.

Numbers are embedded as `Int` (all values involved are integers).
-/

/-- A dynamically typed JSON field value as the client sees it. -/
inductive JSVal where
  | str : String → JSVal
  | num : Int → JSVal
  | undef : JSVal
deriving DecidableEq, Repr

/-- JavaScript truthiness of a `JSVal` (`0`, `""`, `undefined` are falsy). -/
def jsTruthy : JSVal → Bool
  | .str s => s ≠ ""
  | .num n => n ≠ 0
  | .undef => false

/-- JavaScript `String(v)` coercion (used for object property keys). -/
def jsToStr : JSVal → String
  | .str s => s
  | .num n => toString n
  | .undef => "undefined"

/-- Longest leading digit run of a character list. -/
def leadingDigits (cs : List Char) : List Char :=
  cs.takeWhile Char.isDigit

/-- Digits to number; `none` when there is no digit (`parseInt` NaN). -/
def digitsVal (cs : List Char) : Option Nat :=
  if cs = [] then none
  else some (cs.foldl (fun acc c => acc * 10 + (c.toNat - '0'.toNat)) 0)

/-- JavaScript `parseInt` on a string: skips leading whitespace, accepts
an optional sign, then parses the longest leading digit run; `none`
models NaN. -/
def jsParseInt (s : String) : Option Int :=
  match s.toList.dropWhile Char.isWhitespace with
  | '-' :: rest => (digitsVal (leadingDigits rest)).map (fun n => -(n : Int))
  | '+' :: rest => (digitsVal (leadingDigits rest)).map (fun n => (n : Int))
  | cs => (digitsVal (leadingDigits cs)).map (fun n => (n : Int))

/-- JavaScript `parseInt` applied to a `JSVal` (a number argument is
stringified and re-parsed, which is the identity on integers). -/
def jsParseIntVal : JSVal → Option Int
  | .str s => jsParseInt s
  | .num n => some n
  | .undef => none

/-- A medication catalog entry (`Medication` interface; `_id` is the Mongo
string id, `medId` the numeric id used by schedule records). -/
structure Medication where
  mongoId : String
  name : String
  medId : Int
deriving DecidableEq, Repr

/-- A fetched schedule record as the reconcilers consume it.  `medication`
and `container` are duck-typed (`any`); `user` and `scheduleId` arrive as
numbers from the store. -/
structure SRecord where
  scheduleId : Int
  user : Int
  medication : JSVal
  container : JSVal
  date : String
  time : String
  status : String
  alertSent : Bool
deriving DecidableEq, Repr

/-- Boolean lexicographic order on character lists, by code point. -/
def charListLe : List Char → List Char → Bool
  | [], _ => true
  | _ :: _, [] => false
  | a :: as, b :: bs =>
    if a.toNat < b.toNat then true
    else if b.toNat < a.toNat then false
    else charListLe as bs

/-- Lexicographic order on strings.  On this app's fixed-width
`YYYY-MM-DDTHH:MM` composite keys it coincides with the order of the
millisecond timestamps that the JS comparator subtracts. -/
def strLe (a b : String) : Bool := charListLe a.toList b.toList

/-- `date + "T" + time`, the argument of `new Date(...)` in both
reconcilers; doubles as the sort key of `loadSavedData`. -/
def dtCombine (d t : String) : String := d ++ "T" ++ t

/-- Composite timestamp key of a record (`new Date(`${a.date}T${a.time}`)`). -/
def recTs (r : SRecord) : String := dtCombine r.date r.time

section MonitorReconciler

/-- `parseInt(schedule.container) || 1` in `getContainerSchedules`
(`MonitorManageScreen.tsx` line 189): NaN and `0` coerce to container 1. -/
def gcsContainerOf (v : JSVal) : Int :=
  match jsParseIntVal v with
  | none => 1
  | some n => if n = 0 then 1 else n

/-- The group of records landing under container key `c` in
`getContainerSchedules` (grouping preserves input order, like `push`). -/
def gcsGroup (schedules : List SRecord) (c : Int) : List SRecord :=
  schedules.filter (fun r => gcsContainerOf r.container = c)

/-- Medication display name in `getContainerSchedules`
(`MonitorManageScreen.tsx` lines 205-206): strict-equality lookup of
`med.medId === medicationId`, falling back to `` `ID: ${medicationId}` ``. -/
def gcsResolve (meds : List Medication) (v : JSVal) : String :=
  match v with
  | .num n =>
    match meds.find? (fun m => m.medId = n) with
    | some m => m.name
    | none => "ID: " ++ toString n
  | .str s => "ID: " ++ s
  | .undef => "ID: undefined"

/-- A derived per-container view: `{ pill, alarms }` with alarms kept as
the combined datetime strings. -/
structure ContainerView where
  pill : Option String
  alarms : List String
deriving DecidableEq, Repr

/-- The empty view `{ pill: null, alarms: [] }`. -/
def emptyView : ContainerView := ⟨none, []⟩

/-- One container slot of `getContainerSchedules`
(`MonitorManageScreen.tsx` lines 197-218): when the container's group is
non-empty, the pill comes from the group's first record and one alarm is
made per record of the group. -/
def gcsView (schedules : List SRecord) (meds : List Medication) (c : Int) :
    ContainerView :=
  let g := gcsGroup schedules c
  match g.head? with
  | none => emptyView
  | some f =>
    ⟨some (gcsResolve meds f.medication),
     g.map (fun r => dtCombine r.date r.time)⟩

/-- `getContainerSchedules` (`MonitorManageScreen.tsx` lines 175-221):
initializes all three container slots empty, returns them unchanged when
either input list is empty, otherwise fills slots 1..3 from the per-slot
groups.  The result is the association list with exactly the keys 1, 2, 3. -/
def getContainerSchedules (schedules : List SRecord) (meds : List Medication) :
    List (Int × ContainerView) :=
  if schedules = [] ∨ meds = [] then
    [(1, emptyView), (2, emptyView), (3, emptyView)]
  else
    [1, 2, 3].map (fun c => (c, gcsView schedules meds c))

end MonitorReconciler

section ModifyReconciler

/-- The object key a record lands under in `loadSavedData`'s grouping
(`ModifyButton.tsx` line 185): `schedule.container || 1`, then used as a
JS object property key, i.e. coerced with `String(...)`.  A falsy
container (missing, `0`, `""`) lands under key `"1"`. -/
def lsdGroupKey (v : JSVal) : String :=
  if jsTruthy v then jsToStr v else "1"

/-- The group read back for container `containerNum` in `loadSavedData`
(line 196): the object lookup `schedulesByContainer[containerNum]`
coerces the numeric index to the string key. -/
def lsdGroup (records : List SRecord) (c : Int) : List SRecord :=
  records.filter (fun r => lsdGroupKey r.container = toString c)

/-- `loadSavedData`'s per-container sort (`ModifyButton.tsx` lines
200-204): stable sort, most recent `date+time` timestamp first. -/
def sortedForContainer (g : List SRecord) : List SRecord :=
  g.mergeSort (fun a b => strLe (recTs b) (recTs a))

/-- The latest schedule set of a container group (lines 206-212): the
records of the sorted group sharing the first (latest) record's date. -/
def latestSetOf (g : List SRecord) : List SRecord :=
  let sorted := sortedForContainer g
  match sorted.head? with
  | none => []
  | some f => sorted.filter (fun r => r.date = f.date)

/-- Medication-name resolution of `loadSavedData` (lines 216-230).
A string field is matched by name, then by Mongo `_id`, else used as-is;
a numeric field is matched by `_id.toString()`, else yields `null`;
anything else leaves the name `null`. -/
def resolvePill (meds : List Medication) (v : JSVal) : Option String :=
  match v with
  | .str s =>
    match meds.find? (fun m => m.name = s) with
    | some m => some m.name
    | none =>
      match meds.find? (fun m => m.mongoId = s) with
      | some m => some m.name
      | none => some s
  | .num n =>
    match meds.find? (fun m => m.mongoId = toString n) with
    | some m => some m.name
    | none => none
  | .undef => none

/-- One container's reconstruction in `loadSavedData` (lines 195-243):
pill and alarms are produced only when the group is non-empty and the
resolved medication name is truthy; alarms come from the latest set. -/
def loadSavedContainer (meds : List Medication) (g : List SRecord) :
    ContainerView :=
  if g = [] then emptyView
  else
    let latestSet := latestSetOf g
    let firstLatest := match latestSet.head? with
      | some x => some x
      | none => (sortedForContainer g).head?
    match firstLatest with
    | none => emptyView
    | some f =>
      match resolvePill meds f.medication with
      | none => emptyView
      | some nm =>
        if nm = "" then emptyView
        else ⟨some nm, latestSet.map (fun r => dtCombine r.date r.time)⟩

/-- `loadSavedData` (`ModifyButton.tsx` lines 161-252): filters the
fetched records to the current user, then reconstructs containers 1..3.
(The `schedules.length > 0` guard is observationally the same as running
the loop on an empty user list, as each group is then empty.) -/
def loadSavedData (meds : List Medication) (all : List SRecord)
    (uid : Int) : List (Int × ContainerView) :=
  let userSchedules := all.filter (fun r => r.user = uid)
  [1, 2, 3].map (fun c => (c, loadSavedContainer meds (lsdGroup userSchedules c)))

end ModifyReconciler

section TopThreeSelection

/-- Comparator key of the second sort in `loadScheduleData`
(`MonitorManageScreen.tsx` lines 150-155): `parseInt(a.container)`.
For the claims we consider inputs whose containers parse (`getD 0` is
never reached there). -/
def containerSortKey (r : SRecord) : Int :=
  (jsParseIntVal r.container).getD 0

/-- The first sort of `loadScheduleData` (`.sort((a, b) => b.scheduleId -
a.scheduleId)`): stable sort, highest `scheduleId` first. -/
def sortByIdDesc (schedules : List SRecord) : List SRecord :=
  schedules.mergeSort (fun a b => b.scheduleId ≤ a.scheduleId)

/-- `loadScheduleData`'s display selection (`MonitorManageScreen.tsx`
lines 146-155, duplicated at `ModifyButton.tsx` lines 143-152): stable
sort by `scheduleId` descending, keep the first three, then stable sort
those by container number ascending. -/
def selectTop3 (schedules : List SRecord) : List SRecord :=
  ((sortByIdDesc schedules).take 3).mergeSort
    (fun a b => containerSortKey a ≤ containerSortKey b)

/-- The Monitor & Manage display pipeline: filter to the current user
(line 141-144), select the top-3 window, derive the container views. -/
def monitorView (all : List SRecord) (meds : List Medication) (uid : Int) :
    List (Int × ContainerView) :=
  getContainerSchedules (selectTop3 (all.filter (fun r => r.user = uid))) meds

end TopThreeSelection

section Writer

/-- An alarm `Date` as the writer consumes it, already split into the
ISO date part (`toISOString().split('T')[0]`) and the `HH:MM` time part
(`toTimeString().split(' ')[0].substring(0, 5)`). -/
structure AlarmT where
  date : String
  time : String
deriving DecidableEq, Repr

/-- A candidate schedule record built by `saveScheduleData`
(`ModifyButton.tsx` lines 269-306, identically `SetScreen.tsx`). -/
structure CandidateRecord where
  scheduleId : Int
  user : Int
  medication : Int
  container : Int
  date : String
  time : String
  status : String
  alertSent : Bool
deriving DecidableEq, Repr

/-- A record of the remote store as the writer's existing-schedule fetch
returns it (`existingSchedules`); `mongoId` embeds the Mongo `_id`. -/
structure StoreRecord where
  mongoId : Nat
  scheduleId : Int
  user : Int
  medication : Int
  container : Int
  date : String
  time : String
  status : String
  alertSent : Bool
deriving DecidableEq, Repr

/-- The candidate records of one container (`ModifyButton.tsx` lines
282-306): produced only when the pill name is truthy, at least one alarm
exists and the name resolves in the catalog; one record per alarm, with
consecutive `scheduleId`s starting at `start`. -/
def recordsForContainer (uid : Int) (meds : List Medication)
    (pill : Option String) (alarms : List AlarmT) (c : Int) (start : Int) :
    List CandidateRecord :=
  match pill with
  | none => []
  | some name =>
    if name = "" ∨ alarms = [] then []
    else
      match meds.find? (fun m => m.name = name) with
      | none => []
      | some m =>
        (List.range alarms.length).zip alarms |>.map (fun p =>
          { scheduleId := start + (p.1 : Int), user := uid,
            medication := m.medId, container := c,
            date := p.2.date, time := p.2.time,
            status := "Pending", alertSent := false })

/-- The full candidate batch of `saveScheduleData` (lines 279-306): the
`scheduleId` counter starts at 1 and increments once per pushed record,
across the three containers in order. -/
def buildScheduleRecords (uid : Int) (meds : List Medication)
    (pills : Int → Option String) (alarms : Int → List AlarmT) :
    List CandidateRecord :=
  let r1 := recordsForContainer uid meds (pills 1) (alarms 1) 1 1
  let r2 := recordsForContainer uid meds (pills 2) (alarms 2) 2 (1 + r1.length)
  let r3 := recordsForContainer uid meds (pills 3) (alarms 3) 3 (1 + r1.length + r2.length)
  r1 ++ r2 ++ r3

/-- The `(container, user, medication)` triple match of
`saveScheduleData` (`ModifyButton.tsx` lines 311-315). -/
def tripleMatches (e : StoreRecord) (r : CandidateRecord) : Bool :=
  e.container = r.container && e.user = r.user && e.medication = r.medication

/-- The identity triple of a store record. -/
def tripleOfE (e : StoreRecord) : Int × Int × Int :=
  (e.container, e.user, e.medication)

/-- The identity triple of a candidate record. -/
def tripleOfC (r : CandidateRecord) : Int × Int × Int :=
  (r.container, r.user, r.medication)

/-- A write request issued by the writer: `PUT .../:id` with a JSON body,
or `POST` of a new record. -/
inductive WriteOp where
  | put (targetId : Nat) (body : CandidateRecord)
  | post (body : CandidateRecord)
deriving DecidableEq, Repr

/-- Whether a write op is a `PUT`. -/
def WriteOp.isPut : WriteOp → Bool
  | .put _ _ => true
  | .post _ => false

/-- The create-vs-update decision for one candidate (`ModifyButton.tsx`
lines 309-339): `existingSchedules.find(...)` on the triple; a hit turns
into a `PUT` at the hit's `_id` whose body keeps the hit's `scheduleId`;
a miss turns into a `POST` of the candidate. -/
def decideWrite (existing : List StoreRecord) (r : CandidateRecord) : WriteOp :=
  match existing.find? (fun e => tripleMatches e r) with
  | some e => .put e.mongoId { r with scheduleId := e.scheduleId }
  | none => .post r

/-- The whole batch's decisions; every candidate is decided against the
same snapshot of existing schedules, fetched once before the batch. -/
def decideWrites (existing : List StoreRecord) (recs : List CandidateRecord) :
    List WriteOp :=
  recs.map (decideWrite existing)

/-- Largest Mongo id in the store (for modelling freshly assigned ids). -/
def maxId (store : List StoreRecord) : Nat :=
  store.foldr (fun e acc => max e.mongoId acc) 0

/-- The store record created by the server from a `POST` body. -/
def freshRecord (store : List StoreRecord) (body : CandidateRecord) : StoreRecord :=
  { mongoId := maxId store + 1, scheduleId := body.scheduleId,
    user := body.user, medication := body.medication,
    container := body.container, date := body.date, time := body.time,
    status := body.status, alertSent := body.alertSent }

/-- Overwriting a store record's fields with a `PUT` body (the `_id`
addressed by the URL is kept). -/
def putFields (e : StoreRecord) (body : CandidateRecord) : StoreRecord :=
  { mongoId := e.mongoId, scheduleId := body.scheduleId,
    user := body.user, medication := body.medication,
    container := body.container, date := body.date, time := body.time,
    status := body.status, alertSent := body.alertSent }

/-- The server applying one write: `PUT` replaces the fields of the
record at the addressed id, `POST` appends a record under a fresh id. -/
def applyOp (store : List StoreRecord) : WriteOp → List StoreRecord
  | .put id body => store.map (fun e => if e.mongoId = id then putFields e body else e)
  | .post body => store ++ [freshRecord store body]

/-- The server applying a batch of writes. -/
def applyOps (store : List StoreRecord) (ops : List WriteOp) : List StoreRecord :=
  ops.foldl applyOp store

/-- The store holds some record carrying identity triple `t`. -/
def storeHasTriple (store : List StoreRecord) (t : Int × Int × Int) : Prop :=
  ∃ e ∈ store, tripleOfE e = t

/-- Safety of a write batch against a store snapshot: every `PUT`
targets an id already allocated in the store, and its body keeps the
identity triple of every record it can hit.  The batches produced by
`decideWrites` have this shape, which is what makes re-running the
writer stable. -/
def goodOps (store : List StoreRecord) (ops : List WriteOp) : Prop :=
  ∀ id body, WriteOp.put id body ∈ ops →
    id ≤ maxId store ∧
    ∀ e ∈ store, e.mongoId = id → tripleOfE e = tripleOfC body

/-- An HTTP response as the writer inspects it (`ok`, `status`, body text). -/
structure HttpResponse where
  ok : Bool
  status : Int
  body : String
deriving DecidableEq, Repr

/-- The aggregated error message thrown by the writer for the first
failing response (`ModifyButton.tsx` line 348, `SetScreen.tsx` line 287). -/
def batchErrMsg (r : HttpResponse) : String :=
  "HTTP error! status: " ++ toString r.status ++ " - " ++ r.body

/-- The batch failure check (`ModifyButton.tsx` lines 344-349): filter
the non-`ok` responses; when any exists, throw with the first one's
status and body text, else succeed. -/
def checkBatch (responses : List HttpResponse) : Except String Unit :=
  match responses.find? (fun r => !r.ok) with
  | some f => .error (batchErrMsg f)
  | none => .ok ()

/-- Issuing the batch: all requests are sent concurrently (`Promise.all`)
before any response is inspected, so the issued request list never
depends on the outcomes, and no compensating write follows a failure. -/
def runSaveBatch (ops : List WriteOp) (respond : WriteOp → HttpResponse) :
    List WriteOp × Except String Unit :=
  (ops, checkBatch (ops.map respond))

end Writer

section Auth

/-- A decoded JWT payload (`DecodedToken` interface): `id`, optional
`userId`, optional `role`. -/
structure DecodedToken where
  id : String
  userId : Option String
  role : Option String
deriving DecidableEq, Repr

/-- The ambient auth state the screens read: `token` is `none` when
AsyncStorage holds no token, `some none` when a token is present but
`jwtDecode` throws, `some (some d)` when it decodes to `d`; `storedRole`
is the `userRole` AsyncStorage entry written at login. -/
structure AuthState where
  token : Option (Option DecodedToken)
  storedRole : Option String
deriving DecidableEq, Repr

/-- `decodedToken.userId ?? decodedToken.id`. -/
def rawIdOf (d : DecodedToken) : String :=
  d.userId.getD d.id

/-- `getCurrentUserId` of `ModifyButton.tsx` (lines 77-97): missing
token, decode failure, or a non-numeric id all fall back to user 1; no
role is consulted. -/
def modifyGetCurrentUserId (a : AuthState) : Int :=
  match a.token with
  | none => 1
  | some none => 1
  | some (some d) =>
    match jsParseInt (rawIdOf d) with
    | none => 1
    | some n => n

/-- `getCurrentUserId` of `SetScreen.tsx` (lines 196-219); textually the
same total fallback-to-1 logic as the `ModifyButton` copy. -/
def setGetCurrentUserId (a : AuthState) : Int :=
  match a.token with
  | none => 1
  | some none => 1
  | some (some d) =>
    match jsParseInt (rawIdOf d) with
    | none => 1
    | some n => n

/-- `decodedToken.role?.toString() || storedUserRole`
(`MonitorManageScreen.tsx` line 67): a missing or empty token role falls
back to the stored role. -/
def effectiveRole (d : DecodedToken) (stored : Option String) : Option String :=
  match d.role with
  | some r => if r = "" then stored else some r
  | none => stored

/-- The distinct role-failure message of the monitor screen. -/
def onlyEldersMsg : String := "Only Elders can set up medication schedules"

/-- `getCurrentUserId` of `MonitorManageScreen.tsx` (lines 45-84): the
only copy that gates on the role.  After a successful id parse it throws
the Elder-only error when a truthy effective role differs from `"2"`
(the catch block re-throws exactly that error); every other failure
falls back to user 1. -/
def monitorGetCurrentUserId (a : AuthState) : Except String Int :=
  match a.token with
  | none => .ok 1
  | some none => .ok 1
  | some (some d) =>
    match jsParseInt (rawIdOf d) with
    | none => .ok 1
    | some n =>
      match effectiveRole d a.storedRole with
      | some r => if r ≠ "" ∧ r ≠ "2" then .error onlyEldersMsg else .ok n
      | none => .ok n

/-- `loadScheduleData` of `MonitorManageScreen.tsx` (lines 107-167) up
to the selected display window: `getCurrentUserId` runs first, so a role
failure aborts the flow before the schedule fetch and selection. -/
def monitorLoad (a : AuthState) (all : List SRecord) :
    Except String (List SRecord) :=
  (monitorGetCurrentUserId a).map
    (fun uid => selectTop3 (all.filter (fun r => r.user = uid)))

/-- The write requests issued by `saveScheduleData` of
`ModifyButton.tsx` for a given ambient auth state and desired state: the
user id comes from the role-free `getCurrentUserId`, and the decisions
run against the fetched existing schedules. -/
def modifySaveOps (a : AuthState) (meds : List Medication)
    (pills : Int → Option String) (alarms : Int → List AlarmT)
    (existing : List StoreRecord) : List WriteOp :=
  decideWrites existing (buildScheduleRecords (modifyGetCurrentUserId a) meds pills alarms)

/-- Replacing the role carried by the decoded token, leaving the rest of
the auth state unchanged (used to state role-independence). -/
def setTokenRole (a : AuthState) (r : Option String) : AuthState :=
  { a with token := a.token.map (fun t => t.map (fun d => { d with role := r })) }

end Auth

section Fixtures

/-- Concrete desired state used by the writer witnesses: Aspirin in
container 1 with one alarm, Metformin in container 2 with two alarms. -/
def medsW : List Medication := [⟨"m1", "Aspirin", 5⟩, ⟨"m2", "Metformin", 9⟩]

/-- Concrete per-container pill selection for the writer witnesses. -/
def pillsW : Int → Option String := fun c =>
  if c = 1 then some "Aspirin" else if c = 2 then some "Metformin" else none

/-- Concrete per-container alarms for the writer witnesses. -/
def alarmsW : Int → List AlarmT := fun c =>
  if c = 1 then [⟨"2024-06-01", "08:00"⟩]
  else if c = 2 then [⟨"2024-06-01", "09:00"⟩, ⟨"2024-06-02", "21:00"⟩]
  else []

/-- A store holding one record matching the container-1 candidate's
triple (user 1, medication 5, container 1) under Mongo id 77. -/
def existingW : List StoreRecord :=
  [⟨77, 40, 1, 5, 1, "2023-12-25", "07:30", "Taken", true⟩]

/-- A catalog with one entry resolvable both by numeric `medId` 5 and by
Mongo `_id` string `"5"`. -/
def meds1 : List Medication := [⟨"5", "Aspirin", 5⟩]

/-- User 1's container-1 record dated 2024-01-01 (the older date of the
spec's two-record example). -/
def recA1 : SRecord := ⟨1, 1, .num 5, .num 1, "2024-01-01", "08:00", "Pending", false⟩

/-- User 1's container-1 record dated 2024-01-02 (the newer date of the
spec's two-record example). -/
def recB1 : SRecord := ⟨2, 1, .num 5, .num 1, "2024-01-02", "09:00", "Pending", false⟩

/-- A record whose numeric medication id 42 resolves to no catalog entry. -/
def recC5 : SRecord := ⟨3, 1, .num 42, .num 2, "2024-07-01", "10:00", "Pending", false⟩

/-- A one-entry catalog that does not contain medication id 99. -/
def medsC6 : List Medication := [⟨"m1", "Paracetamol", 7⟩]

/-- A record whose numeric medication id 99 resolves to no catalog entry. -/
def recC6 : SRecord := ⟨10, 1, .num 99, .num 1, "2024-05-01", "08:00", "Pending", false⟩

/-- A concrete two-request batch for the batch-failure witness. -/
def opsW : List WriteOp :=
  [.post ⟨1, 1, 5, 1, "2024-06-01", "08:00", "Pending", false⟩,
   .put 77 ⟨40, 1, 9, 2, "2024-06-01", "09:00", "Pending", false⟩]

/-- A response function failing every `POST` with a 500 and passing
every `PUT`. -/
def respondW : WriteOp → HttpResponse := fun op =>
  if op.isPut then ⟨true, 200, "ok"⟩ else ⟨false, 500, "duplicate key"⟩

/-- Four user-1 records with distinct `scheduleId`s for the top-3 window
witness; record `s9d` (scheduleId 2) falls outside the window. -/
def scheds9 : List SRecord :=
  [⟨4, 1, .num 5, .num 2, "2024-03-01", "08:00", "Pending", false⟩,
   ⟨2, 1, .num 5, .num 1, "2024-03-02", "09:00", "Pending", false⟩,
   ⟨9, 1, .num 5, .num 3, "2024-03-03", "10:00", "Pending", false⟩,
   ⟨5, 1, .num 5, .num 1, "2024-03-04", "11:00", "Pending", false⟩]

/-- An auth state whose token decodes to user 7 with role 3 (caregiver). -/
def authRole3 : AuthState := ⟨some (some ⟨"7", some "7", some "3"⟩), none⟩

end Fixtures

section Helpers

/-- A non-empty list decomposes at its `head?`. -/
theorem exists_cons_of_head?_eq_some {α : Type} {l : List α} {a : α}
    (h : l.head? = some a) : ∃ t, l = a :: t := by
  cases l with
  | nil => simp at h
  | cons x xs =>
    simp only [List.head?_cons, Option.some.injEq] at h
    exact ⟨xs, by rw [h]⟩

/-- Every record produced for one container carries the target user id. -/
theorem user_of_mem_recordsForContainer {uid : Int} {meds : List Medication}
    {pill : Option String} {alarms : List AlarmT} {c start : Int}
    {r : CandidateRecord}
    (h : r ∈ recordsForContainer uid meds pill alarms c start) : r.user = uid := by
  unfold recordsForContainer at h
  split at h
  · simp at h
  · split at h
    · simp at h
    · split at h
      · simp at h
      · simp only [List.mem_map] at h
        obtain ⟨p, _, rfl⟩ := h
        rfl

/-- Every record of the writer's candidate batch carries the target user id. -/
theorem user_of_mem_buildScheduleRecords {uid : Int} {meds : List Medication}
    {pills : Int → Option String} {alarms : Int → List AlarmT}
    {r : CandidateRecord}
    (h : r ∈ buildScheduleRecords uid meds pills alarms) : r.user = uid := by
  simp only [buildScheduleRecords, List.mem_append] at h
  rcases h with (h | h) | h <;> exact user_of_mem_recordsForContainer h

/-- Every record produced for one container is `Pending` and unsent. -/
theorem status_of_mem_recordsForContainer {uid : Int} {meds : List Medication}
    {pill : Option String} {alarms : List AlarmT} {c start : Int}
    {r : CandidateRecord}
    (h : r ∈ recordsForContainer uid meds pill alarms c start) :
    r.status = "Pending" ∧ r.alertSent = false := by
  unfold recordsForContainer at h
  split at h
  · simp at h
  · split at h
    · simp at h
    · split at h
      · simp at h
      · simp only [List.mem_map] at h
        obtain ⟨p, _, rfl⟩ := h
        exact ⟨rfl, rfl⟩

/-- Every record of the writer's candidate batch is `Pending` and unsent. -/
theorem status_of_mem_buildScheduleRecords {uid : Int} {meds : List Medication}
    {pills : Int → Option String} {alarms : Int → List AlarmT}
    {r : CandidateRecord}
    (h : r ∈ buildScheduleRecords uid meds pills alarms) :
    r.status = "Pending" ∧ r.alertSent = false := by
  simp only [buildScheduleRecords, List.mem_append] at h
  rcases h with (h | h) | h <;> exact status_of_mem_recordsForContainer h

/-- Transitivity of the lexicographic comparator. -/
theorem charListLe_trans : ∀ (a b c : List Char),
    charListLe a b = true → charListLe b c = true → charListLe a c = true := by
  intro a
  induction a with
  | nil => intro b c _ _; rfl
  | cons x xs ih =>
    intro b c h1 h2
    cases b with
    | nil => simp [charListLe] at h1
    | cons y ys =>
      cases c with
      | nil => simp [charListLe] at h2
      | cons z zs =>
        simp only [charListLe] at h1 h2 ⊢
        by_cases hxz : x.toNat < z.toNat
        · simp [hxz]
        · by_cases hxy : x.toNat < y.toNat
          · by_cases hyz : y.toNat < z.toNat
            · omega
            · by_cases hzy : z.toNat < y.toNat
              · rw [if_neg hyz, if_pos hzy] at h2
                exact absurd h2 (by simp)
              · omega
          · by_cases hyx : y.toNat < x.toNat
            · rw [if_neg hxy, if_pos hyx] at h1
              exact absurd h1 (by simp)
            · by_cases hyz : y.toNat < z.toNat
              · omega
              · by_cases hzy : z.toNat < y.toNat
                · rw [if_neg hyz, if_pos hzy] at h2
                  exact absurd h2 (by simp)
                · rw [if_neg hxy, if_neg hyx] at h1
                  rw [if_neg hyz, if_neg hzy] at h2
                  rw [if_neg hxz, if_neg (by omega : ¬ z.toNat < x.toNat)]
                  exact ih ys zs h1 h2

/-- Totality of the lexicographic comparator. -/
theorem charListLe_total : ∀ (a b : List Char),
    (charListLe a b || charListLe b a) = true := by
  intro a
  induction a with
  | nil => intro b; simp [charListLe]
  | cons x xs ih =>
    intro b
    cases b with
    | nil => simp [charListLe]
    | cons y ys =>
      simp only [charListLe]
      by_cases hxy : x.toNat < y.toNat
      · simp [hxy]
      · by_cases hyx : y.toNat < x.toNat
        · simp [hxy, hyx]
        · simp only [if_neg hxy, if_neg hyx]
          exact ih ys

/-- The first record of the descending-sorted container group is a
record of the group. -/
theorem head_mem_of_sorted {g : List SRecord} {f : SRecord}
    (hf : (sortedForContainer g).head? = some f) : f ∈ g :=
  List.mem_mergeSort.mp (List.mem_of_mem_head? hf)

/-- The latest set's characterisation once the sorted head is known. -/
theorem latestSetOf_eq_filter {g : List SRecord} {f : SRecord}
    (hf : (sortedForContainer g).head? = some f) :
    latestSetOf g = (sortedForContainer g).filter (fun r => r.date = f.date) := by
  simp only [latestSetOf, hf]

/-- The sorted head also heads the latest set (`latestSet[0]`). -/
theorem latestSet_head {g : List SRecord} {f : SRecord}
    (hf : (sortedForContainer g).head? = some f) :
    (latestSetOf g).head? = some f := by
  obtain ⟨t, ht⟩ := exists_cons_of_head?_eq_some hf
  rw [latestSetOf_eq_filter hf, ht, List.filter_cons_of_pos (by simp)]
  rfl

/-- Membership in the latest set means membership in the group with the
latest date. -/
theorem mem_latestSetOf {g : List SRecord} {f r : SRecord}
    (hf : (sortedForContainer g).head? = some f) (hr : r ∈ latestSetOf g) :
    r ∈ g ∧ r.date = f.date := by
  rw [latestSetOf_eq_filter hf] at hr
  obtain ⟨hmem, hdate⟩ := List.mem_filter.mp hr
  exact ⟨List.mem_mergeSort.mp hmem, of_decide_eq_true hdate⟩

/-- Every group record carrying the latest date is in the latest set. -/
theorem latest_mem_latestSetOf {g : List SRecord} {f r : SRecord}
    (hf : (sortedForContainer g).head? = some f) (hr : r ∈ g)
    (hd : r.date = f.date) : r ∈ latestSetOf g := by
  rw [latestSetOf_eq_filter hf]
  exact List.mem_filter.mpr ⟨List.mem_mergeSort.mpr hr, by simp [hd]⟩

/-- `loadSavedContainer` in the resolvable case: pill is the resolved
name and the alarms are exactly the latest set's datetimes. -/
theorem loadSavedContainer_eq {meds : List Medication} {g : List SRecord}
    {f : SRecord} {nm : String}
    (hf : (sortedForContainer g).head? = some f)
    (hres : resolvePill meds f.medication = some nm) (hnm : nm ≠ "") :
    loadSavedContainer meds g =
      ⟨some nm, (latestSetOf g).map (fun r => dtCombine r.date r.time)⟩ := by
  have hgne : g ≠ [] := by
    intro hg
    subst hg
    simp [sortedForContainer, List.mergeSort_nil] at hf
  have hls : (latestSetOf g).head? = some f := latestSet_head hf
  unfold loadSavedContainer
  rw [if_neg hgne]
  simp only [hls, hres]
  rw [if_neg hnm]

/-- Every alarm produced in the resolvable case comes from a group
record of the latest date. -/
theorem alarms_of_latest {meds : List Medication} {g : List SRecord}
    {f : SRecord} {nm : String}
    (hf : (sortedForContainer g).head? = some f)
    (hres : resolvePill meds f.medication = some nm) (hnm : nm ≠ "") :
    ∀ a ∈ (loadSavedContainer meds g).alarms,
      ∃ r ∈ g, r.date = f.date ∧ a = dtCombine r.date r.time := by
  rw [loadSavedContainer_eq hf hres hnm]
  intro a ha
  simp only [List.mem_map] at ha
  obtain ⟨r, hr, rfl⟩ := ha
  obtain ⟨hmem, hdate⟩ := mem_latestSetOf hf hr
  exact ⟨r, hmem, hdate, rfl⟩

end Helpers

unseal List.merge List.mergeSort

section StoreLemmas

/-- The `scheduleId` substitution of the `PUT` body does not change the
candidate's identity triple. -/
theorem tripleOfC_scheduleId (r : CandidateRecord) (k : Int) :
    tripleOfC { r with scheduleId := k } = tripleOfC r := rfl

/-- The boolean triple match is identity-triple equality. -/
theorem tripleMatches_iff {e : StoreRecord} {r : CandidateRecord} :
    tripleMatches e r = true ↔ tripleOfE e = tripleOfC r := by
  simp [tripleMatches, tripleOfE, tripleOfC, Bool.and_eq_true,
    decide_eq_true_eq, Prod.ext_iff, and_assoc]

/-- Every allocated Mongo id is bounded by the store's maximum. -/
theorem maxId_le_of_mem {e : StoreRecord} {store : List StoreRecord}
    (he : e ∈ store) : e.mongoId ≤ maxId store := by
  induction store with
  | nil => cases he
  | cons x xs ih =>
    rcases List.mem_cons.mp he with rfl | h
    · unfold maxId
      simp only [List.foldr_cons]
      exact Nat.le_max_left _ _
    · have hx := ih h
      unfold maxId at hx ⊢
      simp only [List.foldr_cons]
      exact le_trans hx (Nat.le_max_right _ _)

/-- A `PUT` keeps every record's Mongo id. -/
theorem applyOp_put_ids (store : List StoreRecord) (id : Nat)
    (body : CandidateRecord) :
    (applyOp store (.put id body)).map (fun e => e.mongoId)
      = store.map (fun e => e.mongoId) := by
  simp only [applyOp, List.map_map]
  apply List.map_congr_left
  intro e _
  simp only [Function.comp_apply]
  by_cases h : e.mongoId = id <;> simp [h, putFields]

/-- `maxId` is a function of the store's id list. -/
theorem maxId_eq_foldr_ids (store : List StoreRecord) :
    maxId store = (store.map (fun e => e.mongoId)).foldr max 0 := by
  induction store with
  | nil => rfl
  | cons x xs ih =>
    unfold maxId at ih ⊢
    simp only [List.map_cons, List.foldr_cons, ih]

/-- `maxId` over an appended store. -/
theorem maxId_append (l1 l2 : List StoreRecord) :
    maxId (l1 ++ l2) = max (maxId l1) (maxId l2) := by
  induction l1 with
  | nil =>
    unfold maxId
    simp
  | cons x xs ih =>
    unfold maxId at ih ⊢
    simp only [List.cons_append, List.foldr_cons, ih]
    omega

/-- Applying one write never lowers the maximum allocated id. -/
theorem maxId_applyOp (store : List StoreRecord) (op : WriteOp) :
    maxId store ≤ maxId (applyOp store op) := by
  cases op with
  | put id body =>
    rw [maxId_eq_foldr_ids, maxId_eq_foldr_ids (applyOp store (.put id body)),
      applyOp_put_ids]
  | post body =>
    unfold applyOp
    rw [maxId_append]
    exact Nat.le_max_left _ _

/-- One step of a safe batch leaves the rest safe against the new store. -/
theorem goodOps_step {store : List StoreRecord} {op : WriteOp}
    {ops : List WriteOp} (h : goodOps store (op :: ops)) :
    goodOps (applyOp store op) ops := by
  cases op with
  | put id0 body0 =>
    intro id body hmem
    obtain ⟨hle, htr⟩ := h id body (List.mem_cons_of_mem _ hmem)
    have h0 := h id0 body0 (List.mem_cons_self _ _)
    refine ⟨le_trans hle (maxId_applyOp store _), ?_⟩
    intro e' he' hid
    simp only [applyOp, List.mem_map] at he'
    obtain ⟨e, he, rfl⟩ := he'
    by_cases hcase : e.mongoId = id0
    · rw [if_pos hcase] at hid ⊢
      have hid' : e.mongoId = id := hid
      have t0 : tripleOfE (putFields e body0) = tripleOfC body0 := rfl
      rw [t0, ← h0.2 e he hcase]
      exact htr e he hid'
    · rw [if_neg hcase] at hid ⊢
      exact htr e he hid
  | post body0 =>
    intro id body hmem
    obtain ⟨hle, htr⟩ := h id body (List.mem_cons_of_mem _ hmem)
    refine ⟨le_trans hle (maxId_applyOp store _), ?_⟩
    intro e' he' hid
    simp only [applyOp, List.mem_append, List.mem_singleton] at he'
    rcases he' with he' | rfl
    · exact htr e' he' hid
    · exfalso
      have hfresh : (freshRecord store body0).mongoId = maxId store + 1 := rfl
      rw [hfresh] at hid
      omega

/-- A safe batch never erases an identity triple from the store. -/
theorem storeHasTriple_applyOps {store : List StoreRecord}
    {ops : List WriteOp} {t : Int × Int × Int} (hg : goodOps store ops)
    (ht : storeHasTriple store t) : storeHasTriple (applyOps store ops) t := by
  induction ops generalizing store with
  | nil => exact ht
  | cons op rest ih =>
    simp only [applyOps, List.foldl_cons]
    apply ih (goodOps_step hg)
    obtain ⟨e, he, hte⟩ := ht
    cases op with
    | put id0 body0 =>
      by_cases hcase : e.mongoId = id0
      · refine ⟨putFields e body0, ?_, ?_⟩
        · simp only [applyOp, List.mem_map]
          exact ⟨e, he, by rw [if_pos hcase]⟩
        · have h0 := (hg id0 body0 (List.mem_cons_self _ _)).2 e he hcase
          have t0 : tripleOfE (putFields e body0) = tripleOfC body0 := rfl
          rw [t0, ← h0, hte]
      · refine ⟨e, ?_, hte⟩
        simp only [applyOp, List.mem_map]
        exact ⟨e, he, by rw [if_neg hcase]⟩
    | post body0 =>
      refine ⟨e, ?_, hte⟩
      simp only [applyOp, List.mem_append]
      exact Or.inl he

/-- A `POST` inside a safe batch lands its identity triple in the final
store. -/
theorem storeHasTriple_post {store : List StoreRecord} {ops : List WriteOp}
    {body : CandidateRecord} (hg : goodOps store ops)
    (hmem : WriteOp.post body ∈ ops) :
    storeHasTriple (applyOps store ops) (tripleOfC body) := by
  induction ops generalizing store with
  | nil => cases hmem
  | cons op rest ih =>
    simp only [applyOps, List.foldl_cons]
    rcases List.mem_cons.mp hmem with heq | hmem'
    · subst heq
      apply storeHasTriple_applyOps (goodOps_step hg)
      refine ⟨freshRecord store body, ?_, rfl⟩
      simp [applyOp]
    · exact ih (goodOps_step hg) hmem'

/-- The batches `decideWrites` produces are safe against the snapshot
they were decided on, provided the snapshot's Mongo ids are distinct. -/
theorem goodOps_decideWrites {store : List StoreRecord}
    {recs : List CandidateRecord}
    (hids : (store.map (fun e => e.mongoId)).Nodup) :
    goodOps store (decideWrites store recs) := by
  intro id body hmem
  simp only [decideWrites, List.mem_map] at hmem
  obtain ⟨r, _, hw⟩ := hmem
  unfold decideWrite at hw
  cases hfind : store.find? (fun e => tripleMatches e r) with
  | none =>
    rw [hfind] at hw
    cases hw
  | some e =>
    rw [hfind] at hw
    injection hw with h1 h2
    subst h1
    subst h2
    refine ⟨maxId_le_of_mem (List.mem_of_find?_eq_some hfind), ?_⟩
    intro e' he' hid
    have heq : e' = e :=
      List.inj_on_of_nodup_map hids he' (List.mem_of_find?_eq_some hfind) hid
    subst heq
    have hm := List.find?_some hfind
    rw [tripleMatches_iff] at hm
    rw [tripleOfC_scheduleId]
    exact hm

end StoreLemmas

section WriterLemmas

/-- When some existing record matches the candidate's triple, the
decision is a `PUT` addressed by a matching record's identity, reusing
its `scheduleId` in the body. -/
theorem decideWrite_put_of_exists {existing : List StoreRecord}
    {r : CandidateRecord} (h : ∃ e ∈ existing, tripleMatches e r = true) :
    ∃ e ∈ existing, tripleMatches e r = true ∧
      decideWrite existing r =
        .put e.mongoId { r with scheduleId := e.scheduleId } := by
  have hs : (existing.find? (fun e => tripleMatches e r)).isSome := by
    rw [List.find?_isSome]
    exact h
  obtain ⟨e0, he0⟩ := Option.isSome_iff_exists.mp hs
  have hm := List.find?_some he0
  refine ⟨e0, List.mem_of_find?_eq_some he0, hm, ?_⟩
  unfold decideWrite
  rw [he0]

/-- When no existing record matches the candidate's triple, the decision
is a `POST` of the candidate itself. -/
theorem decideWrite_post_of_forall {existing : List StoreRecord}
    {r : CandidateRecord} (h : ∀ e ∈ existing, tripleMatches e r = false) :
    decideWrite existing r = .post r := by
  unfold decideWrite
  rw [List.find?_eq_none.mpr (fun e he => by simp [h e he])]

/-- The `scheduleId`s handed out inside one container's records are the
consecutive integers starting at `start`. -/
theorem recordsForContainer_scheduleIds (uid : Int) (meds : List Medication)
    (pill : Option String) (alarms : List AlarmT) (c start : Int) :
    (recordsForContainer uid meds pill alarms c start).map (fun r => r.scheduleId)
      = (List.range (recordsForContainer uid meds pill alarms c start).length).map
          (fun (i : Nat) => start + (i : Int)) := by
  unfold recordsForContainer
  split
  · rfl
  · split
    · rfl
    · split
      · rfl
      · have hfst : ((List.range alarms.length).zip alarms).map Prod.fst
            = List.range alarms.length :=
          List.map_fst_zip _ _ (by simp)
        simp only [List.map_map, List.length_map, List.length_zip,
          List.length_range, Nat.min_self]
        conv_rhs => rw [← hfst, List.map_map]
        apply List.map_congr_left
        intro p _
        rfl

/-- The writer's batch-local counter: the candidate batch carries the
`scheduleId`s `1, 2, ..., n` in emission order. -/
theorem buildScheduleRecords_scheduleIds (uid : Int) (meds : List Medication)
    (pills : Int → Option String) (alarms : Int → List AlarmT) :
    (buildScheduleRecords uid meds pills alarms).map (fun r => r.scheduleId)
      = (List.range (buildScheduleRecords uid meds pills alarms).length).map
          (fun (i : Nat) => 1 + (i : Int)) := by
  have key : ∀ (s : Int) (n1 n2 n3 : Nat),
      (List.range (n1 + n2 + n3)).map (fun (i : Nat) => s + (i : Int))
        = (List.range n1).map (fun (i : Nat) => s + (i : Int))
          ++ (List.range n2).map (fun (i : Nat) => (s + (n1 : Int)) + (i : Int))
          ++ (List.range n3).map
              (fun (i : Nat) => (s + (n1 : Int) + (n2 : Int)) + (i : Int)) := by
    intro s n1 n2 n3
    rw [List.range_add, List.range_add, List.map_append, List.map_append,
      List.map_map, List.map_map]
    congr 1
    · congr 1
      apply List.map_congr_left
      intro i _
      simp only [Function.comp_apply]
      push_cast
      ring
    · apply List.map_congr_left
      intro i _
      simp only [Function.comp_apply]
      push_cast
      ring
  unfold buildScheduleRecords
  simp only [List.map_append, List.length_append]
  rw [recordsForContainer_scheduleIds, recordsForContainer_scheduleIds,
    recordsForContainer_scheduleIds, key]

end WriterLemmas

/-- C1 counterexample: on the spec's own two-record example (container 1
with dates 2024-01-01 and 2024-01-02, same user), the Monitor & Manage
reconciler (`getContainerSchedules`, cited by the claim) derives
`output[1]` from *both* records: the 2024-01-01 record's alarm appears
in the view, so the view is not derived only from the 2024-01-02 record. -/
theorem monitor_not_latest_only_counterexample :
    (monitorView [recA1, recB1] meds1 1).lookup 1 =
      some ⟨some "Aspirin", ["2024-01-02T09:00", "2024-01-01T08:00"]⟩ ∧
    dtCombine recA1.date recA1.time ∈
      (gcsView (selectTop3 [recA1, recB1]) meds1 1).alarms ∧
    recA1.date ≠ recB1.date := by
  refine ⟨?_, ?_, by decide⟩ <;> decide

/-- C1 (amended): the latest-date rule holds for the Modify screen's
`loadSavedData` reconciliation (`ModifyButton.tsx` lines 195-243),
provided the latest record's medication resolves to a truthy name: the
container group is sorted by composite `date+time` descending, the pill
comes from the sorted head's resolved name, every alarm comes from a
group record sharing the head's (latest) date, and every group record of
that date contributes an alarm.  (`getContainerSchedules` of the Monitor
screen instead uses all records of its pre-windowed group — see the
counterexample.) -/
theorem loadSaved_latest_date_rule (meds : List Medication)
    (g : List SRecord) (f : SRecord) (nm : String)
    (hf : (sortedForContainer g).head? = some f)
    (hres : resolvePill meds f.medication = some nm) (hnm : nm ≠ "") :
    (sortedForContainer g).Pairwise (fun a b => strLe (recTs b) (recTs a) = true) ∧
    f ∈ g ∧
    (loadSavedContainer meds g).pill = some nm ∧
    (∀ a ∈ (loadSavedContainer meds g).alarms,
       ∃ r ∈ g, r.date = f.date ∧ a = dtCombine r.date r.time) ∧
    (∀ r ∈ g, r.date = f.date →
       dtCombine r.date r.time ∈ (loadSavedContainer meds g).alarms) := by
  refine ⟨?_, head_mem_of_sorted hf, ?_, alarms_of_latest hf hres hnm, ?_⟩
  · unfold sortedForContainer
    apply List.sorted_mergeSort
    · intro a b c hab hbc
      exact charListLe_trans _ _ _ hbc hab
    · intro a b
      exact charListLe_total _ _
  · rw [loadSavedContainer_eq hf hres hnm]
  · intro r hr hd
    rw [loadSavedContainer_eq hf hres hnm]
    simp only [List.mem_map]
    exact ⟨r, latest_mem_latestSetOf hf hr hd, rfl⟩

/-- C1 witness: on the spec's two-record example, `loadSavedData`'s
reconstruction of container 1 is derived from the 2024-01-02 record
alone: the pill resolves from it and the only alarm is its datetime. -/
theorem loadSaved_latest_date_rule_witness :
    (sortedForContainer [recA1, recB1]).head? = some recB1 ∧
    resolvePill meds1 recB1.medication = some "Aspirin" ∧
    (loadSavedContainer meds1 [recA1, recB1]).pill = some "Aspirin" ∧
    (loadSavedContainer meds1 [recA1, recB1]).alarms = ["2024-01-02T09:00"] ∧
    recB1 ∈ [recA1, recB1] := by
  have h := loadSaved_latest_date_rule meds1 [recA1, recB1] recB1 "Aspirin"
    (by decide) (by decide) (by decide)
  exact ⟨by decide, by decide, h.2.2.1, by decide, h.2.1⟩

/-- C5 counterexample: a container whose latest date has exactly one
record yields zero alarms (not one) in `loadSavedData` when the record's
numeric medication id resolves to no catalog entry: the claim's length
equation fails without the resolvability proviso. -/
theorem alarm_count_counterexample :
    ([recC5].filter (fun r => r.date = recC5.date)).length = 1 ∧
    (sortedForContainer [recC5]).head? = some recC5 ∧
    (loadSavedContainer [] [recC5]).alarms.length = 0 := by
  refine ⟨by decide, by decide, by decide⟩

/-- C5 (amended): for every container group whose latest (sorted-head)
date has exactly `k` records, and whose latest record's medication
resolves to a truthy name, `loadSavedData` produces exactly `k` alarms,
each the combined datetime of a group record of that same latest date. -/
theorem loadSaved_alarm_count (meds : List Medication) (g : List SRecord)
    (f : SRecord) (nm : String)
    (hf : (sortedForContainer g).head? = some f)
    (hres : resolvePill meds f.medication = some nm) (hnm : nm ≠ "") :
    (loadSavedContainer meds g).alarms.length
      = (g.filter (fun r => r.date = f.date)).length ∧
    ∀ a ∈ (loadSavedContainer meds g).alarms,
      ∃ r ∈ g, r.date = f.date ∧ a = dtCombine r.date r.time := by
  constructor
  · rw [loadSavedContainer_eq hf hres hnm]
    simp only [List.length_map]
    rw [latestSetOf_eq_filter hf]
    exact ((List.mergeSort_perm g _).filter _).length_eq
  · exact alarms_of_latest hf hres hnm

/-- C5 witness: on the two-record example the latest date 2024-01-02 has
one record and the reconstruction has exactly one alarm. -/
theorem loadSaved_alarm_count_witness :
    (loadSavedContainer meds1 [recA1, recB1]).alarms.length
      = ([recA1, recB1].filter (fun r => r.date = recB1.date)).length ∧
    (loadSavedContainer meds1 [recA1, recB1]).alarms.length = 1 := by
  have h := loadSaved_alarm_count meds1 [recA1, recB1] recB1 "Aspirin"
    (by decide) (by decide) (by decide)
  exact ⟨h.1, by decide⟩

/-- C9: For every fetched schedule list, the displayed selection is at
most 3 records; it is exactly (a permutation of) the first three of the
stable `scheduleId`-descending sort, every record outside that window
has a `scheduleId` no larger than every selected one, the selection is
ordered by container number, and the Monitor & Manage display view is
computed from the selection alone, so records outside the window
contribute no pill and no alarm. -/
theorem display_window_top3 (schedules : List SRecord)
    (hp : ∀ r ∈ schedules, (jsParseIntVal r.container).isSome = true) :
    (selectTop3 schedules).length ≤ 3 ∧
    (selectTop3 schedules).Perm ((sortByIdDesc schedules).take 3) ∧
    schedules.Perm
      ((sortByIdDesc schedules).take 3 ++ (sortByIdDesc schedules).drop 3) ∧
    (∀ s ∈ (sortByIdDesc schedules).take 3,
       ∀ t ∈ (sortByIdDesc schedules).drop 3, t.scheduleId ≤ s.scheduleId) ∧
    (selectTop3 schedules).Pairwise
      (fun a b => containerSortKey a ≤ containerSortKey b) ∧
    (∀ (all : List SRecord) (meds : List Medication) (uid : Int),
       monitorView all meds uid =
         getContainerSchedules (selectTop3 (all.filter (fun r => r.user = uid))) meds) := by
  have hsorted : (sortByIdDesc schedules).Pairwise
      (fun a b => (decide (b.scheduleId ≤ a.scheduleId)) = true) := by
    unfold sortByIdDesc
    apply List.sorted_mergeSort
    · intro a b c hab hbc
      simp only [decide_eq_true_eq] at *
      omega
    · intro a b
      simp only [Bool.or_eq_true, decide_eq_true_eq]
      omega
  refine ⟨?_, ?_, ?_, ?_, ?_, fun _ _ _ => rfl⟩
  · unfold selectTop3
    rw [List.length_mergeSort]
    exact List.length_take_le 3 _
  · exact List.mergeSort_perm _ _
  · rw [List.take_append_drop]
    exact (List.mergeSort_perm schedules _).symm
  · intro s hs t ht
    rw [← List.take_append_drop 3 (sortByIdDesc schedules)] at hsorted
    obtain ⟨-, -, hcross⟩ := List.pairwise_append.mp hsorted
    exact of_decide_eq_true (hcross s hs t ht)
  · have hs : (selectTop3 schedules).Pairwise
        (fun a b => (decide (containerSortKey a ≤ containerSortKey b)) = true) := by
      unfold selectTop3
      apply List.sorted_mergeSort
      · intro a b c hab hbc
        simp only [decide_eq_true_eq] at *
        omega
      · intro a b
        simp only [Bool.or_eq_true, decide_eq_true_eq]
        omega
    exact hs.imp (fun hab => of_decide_eq_true hab)

/-- C9 witness: of the four concrete records with `scheduleId`s 4, 2, 9,
5, the selection keeps exactly the three highest (5, 4, 9) ordered by
container number (1, 2, 3), and the record with `scheduleId` 2 — dated
latest of all — is not displayed. -/
theorem display_window_top3_witness :
    scheds9.all (fun r => (jsParseIntVal r.container).isSome) = true ∧
    (selectTop3 scheds9).length ≤ 3 ∧
    (selectTop3 scheds9).map (fun r => r.scheduleId) = [5, 4, 9] ∧
    (⟨2, 1, .num 5, .num 1, "2024-03-02", "09:00", "Pending", false⟩ : SRecord)
      ∉ selectTop3 scheds9 := by
  have h := display_window_top3 scheds9 (by decide)
  exact ⟨by decide, h.1, by decide, by decide⟩

/-- C6 counterexample: in `loadSavedData` (`ModifyButton.tsx` lines
216-230) a record whose *numeric* medication id 99 resolves to no
catalog entry does not yield the raw id as a fallback pill string — the
container is skipped altogether, leaving `{pill: null, alarms: []}`. -/
theorem loadSaved_fallback_counterexample :
    (loadSavedData medsC6 [recC6] 1).lookup 1 = some emptyView ∧
    emptyView.pill ≠ some "99" ∧ emptyView.pill ≠ some "ID: 99" := by
  refine ⟨?_, by decide, by decide⟩
  decide

/-- C6 (amended): the reconcilers never throw (they are total Lean
functions); in `getContainerSchedules` an unknown medication id is
rendered as the raw-id fallback `` `ID: ${id}` `` and a missing or
malformed (or `0`) container is coerced to container 1; in
`loadSavedData` a *falsy* container is coerced to container 1, an
unknown *string* medication is used verbatim as the pill, but an
unknown *numeric* medication id yields a `null` pill instead of a
fallback string. -/
theorem reconciler_edge_cases :
    (∀ (meds : List Medication) (n : Int),
       meds.find? (fun m => m.medId = n) = none →
       gcsResolve meds (.num n) = "ID: " ++ toString n) ∧
    (∀ v : JSVal, jsParseIntVal v = none ∨ jsParseIntVal v = some 0 →
       gcsContainerOf v = 1) ∧
    (∀ v : JSVal, jsTruthy v = false → lsdGroupKey v = "1") ∧
    (∀ (meds : List Medication) (s : String), s ≠ "" →
       meds.find? (fun m => m.name = s) = none →
       meds.find? (fun m => m.mongoId = s) = none →
       resolvePill meds (.str s) = some s) ∧
    (∀ (meds : List Medication) (n : Int),
       meds.find? (fun m => m.mongoId = toString n) = none →
       resolvePill meds (.num n) = none) := by
  refine ⟨?_, ?_, ?_, ?_, ?_⟩
  · intro meds n h
    simp only [gcsResolve, h]
  · intro v h
    rcases h with h | h <;> simp only [gcsContainerOf, h]
    rfl
  · intro v h
    simp only [lsdGroupKey, h]
    rfl
  · intro meds s _ h1 h2
    simp only [resolvePill, h1, h2]
  · intro meds n h
    simp only [resolvePill, h]

/-- C6 witness: the concrete edge inputs — unknown id 99 against the
one-entry catalog, an unparseable container string, a missing container,
and an unknown string medication name. -/
theorem reconciler_edge_cases_witness :
    gcsResolve medsC6 (.num 99) = "ID: 99" ∧
    gcsContainerOf (.str "box") = 1 ∧
    lsdGroupKey .undef = "1" ∧
    resolvePill medsC6 (.str "Unknown Pill") = some "Unknown Pill" ∧
    resolvePill medsC6 (.num 99) = none := by
  have h := reconciler_edge_cases
  exact ⟨h.1 medsC6 99 (by decide), h.2.1 (.str "box") (Or.inl (by decide)),
    h.2.2.1 .undef (by decide), h.2.2.2.1 medsC6 "Unknown Pill" (by decide)
      (by decide) (by decide), h.2.2.2.2 medsC6 99 (by decide)⟩

/-- C3: Running the Writer a second time with the same desired state,
against the store left by the first run, issues no `POST`: every
candidate of the identical second batch finds an existing record
matching its `(container, user, medication)` triple — whether the first
run `PUT` it or `POST`ed it — so every second-run decision is a `PUT`
and no duplicate record is created, also when a container+medication
carries more than one alarm in the batch.  (The store's Mongo ids are
assumed distinct, as database `_id`s are.) -/
theorem writer_idempotent (uid : Int) (meds : List Medication)
    (pills : Int → Option String) (alarms : Int → List AlarmT)
    (store : List StoreRecord)
    (hids : (store.map (fun e => e.mongoId)).Nodup) :
    ∀ op ∈ decideWrites
        (applyOps store
          (decideWrites store (buildScheduleRecords uid meds pills alarms)))
        (buildScheduleRecords uid meds pills alarms),
      op.isPut = true := by
  intro op hop
  simp only [decideWrites, List.mem_map] at hop
  obtain ⟨r, hr, rfl⟩ := hop
  show (decideWrite (applyOps store
    (decideWrites store (buildScheduleRecords uid meds pills alarms))) r).isPut = true
  have htriple : storeHasTriple
      (applyOps store (decideWrites store (buildScheduleRecords uid meds pills alarms)))
      (tripleOfC r) := by
    cases hfind : store.find? (fun e => tripleMatches e r) with
    | some e =>
      apply storeHasTriple_applyOps (goodOps_decideWrites hids)
      have hm := List.find?_some hfind
      rw [tripleMatches_iff] at hm
      exact ⟨e, List.mem_of_find?_eq_some hfind, hm⟩
    | none =>
      apply storeHasTriple_post (goodOps_decideWrites hids)
      simp only [decideWrites, List.mem_map]
      refine ⟨r, hr, ?_⟩
      unfold decideWrite
      rw [hfind]
  obtain ⟨e, he, hte⟩ := htriple
  obtain ⟨e2, _, _, heq⟩ := decideWrite_put_of_exists
    ⟨e, he, by rw [tripleMatches_iff]; exact hte⟩
  rw [heq]
  rfl

/-- C3 witness: starting from the empty store (distinct ids trivially),
the first run of the concrete three-record batch — container 2 carrying
two alarms for the same medication — leaves a store against which the
identical second run decides only `PUT`s. -/
theorem writer_idempotent_witness :
    (([] : List StoreRecord).map (fun e => e.mongoId)).Nodup ∧
    (decideWrites
        (applyOps []
          (decideWrites [] (buildScheduleRecords 1 medsW pillsW alarmsW)))
        (buildScheduleRecords 1 medsW pillsW alarmsW)).all
      (fun op => op.isPut) = true := by
  have h := writer_idempotent 1 medsW pillsW alarmsW [] (by decide)
  refine ⟨by decide, ?_⟩
  rw [List.all_eq_true]
  exact h

/-- C4: For every input record set (including the empty set) and every
catalog, the Reconciler's output is a map with exactly the keys 1, 2, 3,
each value of shape `{pill, alarms}` (the `ContainerView` type); and for
every container `c` with zero input records, `output[c] = {pill: null,
alarms: []}`. -/
theorem reconciler_output_shape (schedules : List SRecord)
    (meds : List Medication) :
    (getContainerSchedules schedules meds).map Prod.fst = [1, 2, 3] ∧
    (∀ c : Int, (c = 1 ∨ c = 2 ∨ c = 3) → gcsGroup schedules c = [] →
       (getContainerSchedules schedules meds).lookup c = some emptyView) := by
  constructor
  · unfold getContainerSchedules
    split
    · rfl
    · simp
  · intro c hc hempty
    have hview : gcsView schedules meds c = emptyView := by
      unfold gcsView
      rw [hempty]
      rfl
    unfold getContainerSchedules
    split
    · rcases hc with rfl | rfl | rfl <;> rfl
    · rcases hc with rfl | rfl | rfl <;> simp [List.lookup, hview]

/-- C4 witness: a record set occupying all three containers still yields
exactly the keys 1, 2, 3; and on a set whose container-1 group is empty,
slot 1 is the empty view. -/
theorem reconciler_output_shape_witness :
    (getContainerSchedules scheds9 meds1).map Prod.fst = [1, 2, 3] ∧
    gcsGroup [recC5] 1 = [] ∧
    (getContainerSchedules [recC5] meds1).lookup 1 = some emptyView := by
  have h1 := reconciler_output_shape scheds9 meds1
  have h2 := reconciler_output_shape [recC5] meds1
  exact ⟨h1.1, by decide, h2.2 1 (Or.inl rfl) (by decide)⟩

/-- C2: For every desired per-container state and every existing-record
list, the Writer decides create-vs-update per candidate by searching the
existing records for one whose `(container, user, medication)` triple
equals the candidate's: a hit yields a `PUT` addressed by that record's
identity reusing its `scheduleId` (the body's status is `"Pending"` and
`alertSent` is `false`, resetting the original); a miss yields a `POST`
of the candidate, which carries the batch-locally incremented
`scheduleId` counter (`1, 2, ..., n` in emission order). -/
theorem writer_create_vs_update (uid : Int) (meds : List Medication)
    (pills : Int → Option String) (alarms : Int → List AlarmT)
    (existing : List StoreRecord) :
    ((buildScheduleRecords uid meds pills alarms).map (fun r => r.scheduleId)
      = (List.range (buildScheduleRecords uid meds pills alarms).length).map
          (fun (i : Nat) => 1 + (i : Int))) ∧
    ∀ r ∈ buildScheduleRecords uid meds pills alarms,
      r.status = "Pending" ∧ r.alertSent = false ∧
      ((∃ e ∈ existing, tripleMatches e r = true) →
        ∃ e ∈ existing, tripleMatches e r = true ∧
          decideWrite existing r =
            .put e.mongoId { r with scheduleId := e.scheduleId }) ∧
      ((∀ e ∈ existing, tripleMatches e r = false) →
        decideWrite existing r = .post r) := by
  refine ⟨buildScheduleRecords_scheduleIds uid meds pills alarms, ?_⟩
  intro r hr
  obtain ⟨hstat, hsent⟩ := status_of_mem_buildScheduleRecords hr
  exact ⟨hstat, hsent, decideWrite_put_of_exists,
    fun h => decideWrite_post_of_forall h⟩

/-- C2 witness: on the concrete desired state, the container-1 candidate
finds its triple in the store and becomes a `PUT` reusing id 77 and
`scheduleId` 40, while a container-2 candidate misses and becomes a
`POST`; the batch counter hands out 1, 2, 3. -/
theorem writer_create_vs_update_witness :
    (buildScheduleRecords 1 medsW pillsW alarmsW).map (fun r => r.scheduleId)
      = [1, 2, 3] ∧
    decideWrite existingW ⟨1, 1, 5, 1, "2024-06-01", "08:00", "Pending", false⟩ =
      .put 77 ⟨40, 1, 5, 1, "2024-06-01", "08:00", "Pending", false⟩ ∧
    decideWrite existingW ⟨2, 1, 9, 2, "2024-06-01", "09:00", "Pending", false⟩ =
      .post ⟨2, 1, 9, 2, "2024-06-01", "09:00", "Pending", false⟩ := by
  have h := writer_create_vs_update 1 medsW pillsW alarmsW existingW
  refine ⟨by rw [h.1]; decide, ?_, ?_⟩
  · obtain ⟨e, he, -, heq⟩ := (h.2 ⟨1, 1, 5, 1, "2024-06-01", "08:00", "Pending", false⟩
      (by decide)).2.2.1 ⟨⟨77, 40, 1, 5, 1, "2023-12-25", "07:30", "Taken", true⟩,
        by decide, by decide⟩
    have he77 : e = ⟨77, 40, 1, 5, 1, "2023-12-25", "07:30", "Taken", true⟩ := by
      simpa [existingW] using he
    rw [heq, he77]
  · exact (h.2 ⟨2, 1, 9, 2, "2024-06-01", "09:00", "Pending", false⟩
      (by decide)).2.2.2 (by decide)

/-- C7: For every Writer batch in which at least one write fails, the
issued request list is exactly the decided batch (every write is sent,
and no compensating rollback write is added), and the reported error
carries the status and body of the first failing response, so the whole
batch is reported as failed. -/
theorem writer_batch_failure (ops : List WriteOp)
    (respond : WriteOp → HttpResponse)
    (h : ∃ op ∈ ops, (respond op).ok = false) :
    (runSaveBatch ops respond).1 = ops ∧
    ∃ pre f rest, ops.map respond = pre ++ f :: rest ∧
      (∀ x ∈ pre, x.ok = true) ∧ f.ok = false ∧
      (runSaveBatch ops respond).2 = .error (batchErrMsg f) := by
  have hs : ((ops.map respond).find? (fun r => !r.ok)).isSome := by
    rw [List.find?_isSome]
    obtain ⟨op, hop, hko⟩ := h
    exact ⟨respond op, List.mem_map_of_mem respond hop, by simp [hko]⟩
  obtain ⟨f, hf⟩ := Option.isSome_iff_exists.mp hs
  obtain ⟨hpf, pre, rest, heq, hpre⟩ := List.find?_eq_some.mp hf
  refine ⟨rfl, pre, f, rest, heq, ?_, ?_, ?_⟩
  · intro x hx
    have := hpre x hx
    simpa using this
  · simpa using hpf
  · unfold runSaveBatch checkBatch
    rw [hf]

/-- C7 witness: with the `POST` of the concrete batch failing with a
500, the batch is reported failed with that response's status and body,
and both requests are still the issued ones. -/
theorem writer_batch_failure_witness :
    (runSaveBatch opsW respondW).1 = opsW ∧
    (runSaveBatch opsW respondW).2 =
      .error "HTTP error! status: 500 - duplicate key" := by
  have h := writer_batch_failure opsW respondW
    ⟨.post ⟨1, 1, 5, 1, "2024-06-01", "08:00", "Pending", false⟩, by decide, rfl⟩
  exact ⟨h.1, rfl⟩

/-- C8 counterexample: a caller whose token carries role 3 (caregiver)
still gets writes issued by the ModifyButton save flow: with one desired
container the flow issues exactly one write request instead of halting,
so role 2 is not required for this schedule mutation. -/
theorem mutation_role_gate_counterexample :
    (authRole3.token = some (some ⟨"7", some "7", some "3"⟩)) ∧
    ("3" : String) ≠ "2" ∧
    (modifySaveOps authRole3 medsW
        (fun c => if c = 1 then some "Aspirin" else none)
        (fun c => if c = 1 then [⟨"2024-06-01", "08:00"⟩] else [])
        []).length = 1 := by
  refine ⟨rfl, by decide, by decide⟩

/-- C8 (amended): the role-2 gate with its distinct message exists only
in the Monitor & Manage screen's `getCurrentUserId` (lines 45-84), which
runs first in that screen's *load* flow: when a token decodes, its id
parses, and the effective role is truthy and differs from `"2"`, that
flow halts with the Elder-only error before any schedule processing.
The mutation flows do not consult the role: the ModifyButton save path's
user id, and hence its write requests, are unchanged under any
substitution of the token's role. -/
theorem role_gate_monitor_only (a : AuthState) (d : DecodedToken)
    (n : Int) (r : String) (all : List SRecord)
    (htoken : a.token = some (some d))
    (hid : jsParseInt (rawIdOf d) = some n)
    (hrole : effectiveRole d a.storedRole = some r)
    (hne : r ≠ "") (hn2 : r ≠ "2") :
    monitorGetCurrentUserId a = .error onlyEldersMsg ∧
    monitorLoad a all = .error onlyEldersMsg ∧
    (∀ (ro : Option String) (meds : List Medication)
       (pills : Int → Option String) (alarms : Int → List AlarmT)
       (existing : List StoreRecord),
       modifyGetCurrentUserId (setTokenRole a ro) = modifyGetCurrentUserId a ∧
       modifySaveOps (setTokenRole a ro) meds pills alarms existing =
         modifySaveOps a meds pills alarms existing) := by
  have herr : monitorGetCurrentUserId a = .error onlyEldersMsg := by
    unfold monitorGetCurrentUserId
    rw [htoken]
    simp only [hid, hrole]
    rw [if_pos ⟨hne, hn2⟩]
  have hrole_free : ∀ ro : Option String,
      modifyGetCurrentUserId (setTokenRole a ro) = modifyGetCurrentUserId a := by
    intro ro
    unfold modifyGetCurrentUserId setTokenRole
    rw [htoken]
    rfl
  refine ⟨herr, ?_, ?_⟩
  · unfold monitorLoad
    rw [herr]
    rfl
  · intro ro meds pills alarms existing
    refine ⟨hrole_free ro, ?_⟩
    unfold modifySaveOps
    rw [hrole_free ro]

/-- C8 witness: for the concrete role-3 auth state the Monitor load flow
halts with the Elder-only error, while replacing the role by `"2"` or
`"3"` leaves the ModifyButton save path's user id unchanged at 7. -/
theorem role_gate_monitor_only_witness :
    monitorGetCurrentUserId authRole3 = .error onlyEldersMsg ∧
    monitorLoad authRole3 [] = .error onlyEldersMsg ∧
    modifyGetCurrentUserId (setTokenRole authRole3 (some "2")) =
      modifyGetCurrentUserId authRole3 ∧
    modifyGetCurrentUserId authRole3 = 7 := by
  have h := role_gate_monitor_only authRole3 ⟨"7", some "7", some "3"⟩ 7 "3" []
    rfl (by decide) rfl (by decide) (by decide)
  exact ⟨h.1, h.2.1, (h.2.2 (some "2") [] (fun _ => none) (fun _ => []) []).1,
    by decide⟩

/-- C10: `getCurrentUserId` on the save path (`SetScreen.tsx` lines
196-219 and `ModifyButton.tsx` lines 77-97) is total and never
propagates an auth failure: an absent token, an undecodable token, or a
token with a non-numeric id all yield the default user id 1, and the
schedule records written in such a state are attributed to user 1. -/
theorem getCurrentUserId_defaults_to_one (a : AuthState)
    (meds : List Medication) (pills : Int → Option String)
    (alarms : Int → List AlarmT)
    (h : a.token = none ∨ a.token = some none ∨
         ∃ d, a.token = some (some d) ∧ jsParseInt (rawIdOf d) = none) :
    modifyGetCurrentUserId a = 1 ∧ setGetCurrentUserId a = 1 ∧
    (∀ r ∈ buildScheduleRecords (setGetCurrentUserId a) meds pills alarms,
       r.user = 1) ∧
    (∀ r ∈ buildScheduleRecords (modifyGetCurrentUserId a) meds pills alarms,
       r.user = 1) := by
  have h1 : modifyGetCurrentUserId a = 1 := by
    unfold modifyGetCurrentUserId
    rcases h with h | h | ⟨d, h, hd⟩ <;> rw [h]
    simp [hd]
  have h2 : setGetCurrentUserId a = 1 := by
    unfold setGetCurrentUserId
    rcases h with h | h | ⟨d, h, hd⟩ <;> rw [h]
    simp [hd]
  refine ⟨h1, h2, ?_, ?_⟩
  · intro r hr
    rw [user_of_mem_buildScheduleRecords hr, h2]
  · intro r hr
    rw [user_of_mem_buildScheduleRecords hr, h1]

/-- C10 witness: with no stored token, both save-path user id functions
return 1 and the concrete three-record batch is attributed to user 1. -/
theorem getCurrentUserId_defaults_to_one_witness :
    modifyGetCurrentUserId ⟨none, none⟩ = 1 ∧
    setGetCurrentUserId ⟨none, none⟩ = 1 ∧
    (buildScheduleRecords (setGetCurrentUserId ⟨none, none⟩) medsW pillsW
        alarmsW).map (fun r => r.user) = [1, 1, 1] := by
  have h := getCurrentUserId_defaults_to_one ⟨none, none⟩ medsW pillsW alarmsW
    (Or.inl rfl)
  exact ⟨h.1, h.2.1, by decide⟩
